import Mathlib

/-!
Verification of the Orchestra session-management core: a shallow embedding
of the session manager, shell command builder, session-id validation,
input-detection heuristic and checks engine, with theorems settling the
specification claims about them.

Modelling conventions:
* Rust `String`/`&str` values are Lean `String`; `str::len()` (a UTF-8 byte
  count) is modelled by `utf8Len` below.
* Rust `char::is_alphanumeric` / `char::is_whitespace` are Unicode
  predicates; they are modelled by Lean's ASCII `Char.isAlphanum` /
  `Char.isWhitespace`, which agree on all ASCII text (all inputs the
  claims exercise).
* `u64` output hashes are `Nat` (only compared for equality), `i32` exit
  codes are `Int`, the `u32` stale-poll counter is `Nat` (its only
  arithmetic is `+ 1`; a Rust debug build panics long before `u32`
  overflow could be reached, after 2^32 consecutive polls).
-/

namespace Orchestra

/-- The single-quote character, written by code point to keep source
punctuation unambiguous. -/
def squote : Char := Char.ofNat 39

/-- The backslash character, written by code point. -/
def bslash : Char := Char.ofNat 92

/-- One-character string holding a single quote. -/
def squoteS : String := String.singleton squote

/-- Rust `str::starts_with` on valid UTF-8 is character-prefix testing. -/
def starts_with (s p : String) : Bool := p.data.isPrefixOf s.data

/-- Rust `str::ends_with` on valid UTF-8 is character-suffix testing. -/
def ends_with (s p : String) : Bool := p.data.isSuffixOf s.data

/-- Rust `str::contains` with a literal pattern: substring containment. -/
def hasInfix (pat : List Char) : List Char → Bool
  | [] => pat.isEmpty
  | c :: rest => pat.isPrefixOf (c :: rest) || hasInfix pat rest

/-- Rust `str::contains` lifted to `String`. -/
def strContains (hay pat : String) : Bool := hasInfix pat.data hay.data

/-- Rust `str::len`: the UTF-8 byte length of a string. -/
def utf8Len (s : String) : Nat := s.data.foldl (fun n c => n + c.utf8Size) 0

/-! ## Session id validation (`src/src-tauri/src/commands/sessions.rs`) -/

/-- Characters `validate_session_id` accepts: `c.is_alphanumeric() || c == '-'
|| c == '_'` (ASCII model of the Unicode predicate, see header). -/
def sessionIdCharOk (c : Char) : Bool := c.isAlphanum || c = '-' || c = '_'

/-- Embedding of `validate_session_id`: only orchestra-prefixed ids with
alphanumeric/dash/underscore characters and byte length at most 128 pass. -/
def validate_session_id (session_id : String) : Except String Unit :=
  if !(starts_with session_id "orchestra-") then
    .error ("Invalid session ID: must start with " ++ squoteS ++ "orchestra-" ++ squoteS)
  else if !(session_id.data.all sessionIdCharOk) then
    .error "Invalid session ID: contains invalid characters"
  else if 128 < utf8Len session_id then
    .error "Invalid session ID: too long"
  else
    .ok ()

/-- A conforming session id of exactly 128 ASCII characters (128 bytes). -/
def idLen128 : String := "orchestra-" ++ List.asString (List.replicate 118 'a')

/-- A conforming-charset session id of exactly 129 ASCII characters. -/
def idLen129 : String := "orchestra-" ++ List.asString (List.replicate 119 'a')

set_option maxRecDepth 8000

/-- C3: `validate_session_id` accepts exactly the strings with the
`orchestra-` prefix, only alphanumeric/dash/underscore characters and
length at most 128; a conforming 128-character id is accepted, a
129-character one rejected, and every rejection carries a descriptive
`Invalid session ID` error message. -/
theorem c3_validate_session_id_spec :
    (∀ s : String, validate_session_id s = .ok () ↔
      (starts_with s "orchestra-" = true ∧ s.data.all sessionIdCharOk = true ∧
        utf8Len s ≤ 128)) ∧
    validate_session_id idLen128 = .ok () ∧
    validate_session_id idLen129 = .error "Invalid session ID: too long" ∧
    (∀ s : String, validate_session_id s = .ok () ∨
      ∃ m : String, validate_session_id s = .error m ∧
        starts_with m "Invalid session ID" = true) := by
  refine ⟨?_, ?_, ?_, ?_⟩
  · intro s
    unfold validate_session_id
    rcases h1 : starts_with s "orchestra-" <;>
      rcases h2 : s.data.all sessionIdCharOk <;>
      rcases h3 : decide (128 < utf8Len s) <;>
      simp_all
  · rfl
  · rfl
  · intro s
    unfold validate_session_id
    rcases h1 : starts_with s "orchestra-" <;>
      rcases h2 : s.data.all sessionIdCharOk <;>
      rcases h3 : decide (128 < utf8Len s) <;>
      simp_all <;> decide

/-! ## Session manager (`src/src-tauri/src/sessions/manager.rs`)

The manager owns a mutex-protected `HashMap<String, Session>`; it is
modelled as an association list with unique-key discipline (`findSession`
returns the first matching entry and `setSession` replaces it, exactly the
read-modify-write the Rust `get_mut` performs). -/

/-- Session lifecycle states. -/
inductive SessionStatus where
  | running
  | awaitingInput
  | completed
  | failed
  deriving DecidableEq, Repr

/-- Embedding of the `Session` record. -/
structure Session where
  id : String
  node_id : String
  agent : String
  status : SessionStatus
  created_at : Int
  exit_code : Option Int
  cwd : Option String
  last_output_hash : Option Nat
  stale_poll_count : Nat
  detected_question : Option String
  node_label : Option String
  deriving DecidableEq, Repr

/-- Embedding of the `StalenessUpdate` result record. -/
structure StalenessUpdate where
  stale_count : Nat
  is_stale : Bool
  status : SessionStatus
  cleared_awaiting_input : Bool
  deriving DecidableEq, Repr

/-- The in-memory session table. -/
abbrev SessionTable := List (String × Session)

/-- Lookup by session id (`sessions.get(id)`). -/
def findSession : SessionTable → String → Option Session
  | [], _ => none
  | p :: rest, sid => if p.1 = sid then some p.2 else findSession rest sid

/-- Replace the entry for an id, leaving other entries untouched (the
write-back half of `sessions.get_mut(id)`). -/
def setSession : SessionTable → String → Session → SessionTable
  | [], _, _ => []
  | p :: rest, sid, s => if p.1 = sid then (p.1, s) :: rest else p :: setSession rest sid s

/-- Embedding of `SessionManager::mark_completed`: sets the status from the
exit code when the id is tracked, otherwise does nothing. -/
def mark_completed (t : SessionTable) (sid : String) (exit_code : Int) : SessionTable :=
  match findSession t sid with
  | none => t
  | some s =>
      setSession t sid
        { s with
          status := if exit_code = 0 then .completed else .failed,
          exit_code := some exit_code }

/-- Embedding of `SessionManager::mark_awaiting_input`: transitions only
when the session is tracked and not already awaiting input. -/
def mark_awaiting_input (t : SessionTable) (sid : String) (q : Option String) : SessionTable :=
  match findSession t sid with
  | none => t
  | some s =>
      if s.status ≠ SessionStatus.awaitingInput then
        setSession t sid { s with status := .awaitingInput, detected_question := q }
      else t

/-- Embedding of `SessionManager::update_staleness`: equal hash increments
the stale counter; a different hash resets it, stores the hash and clears
an awaiting-input condition back to running. -/
def update_staleness (t : SessionTable) (sid : String) (output_hash : Nat) :
    Option StalenessUpdate × SessionTable :=
  match findSession t sid with
  | none => (none, t)
  | some s =>
      if s.last_output_hash = some output_hash then
        let s2 := { s with stale_poll_count := s.stale_poll_count + 1 }
        (some ⟨s2.stale_poll_count, true, s2.status, false⟩, setSession t sid s2)
      else
        if s.status = SessionStatus.awaitingInput then
          let s2 := { s with
            stale_poll_count := 0,
            last_output_hash := some output_hash,
            status := SessionStatus.running,
            detected_question := none }
          (some ⟨0, false, SessionStatus.running, true⟩, setSession t sid s2)
        else
          let s2 := { s with
            stale_poll_count := 0,
            last_output_hash := some output_hash }
          (some ⟨0, false, s2.status, false⟩, setSession t sid s2)

/-- The id `create_session` generates:
`format!("orchestra-{}", uuid::Uuid::new_v4())`. -/
def create_session_id (uuid : String) : String := "orchestra-" ++ uuid

/-- Characters of a hyphenated lowercase UUID rendering. -/
def uuidCharOk (c : Char) : Bool := c.isDigit || ('a' ≤ c && c ≤ 'f') || c = '-'

/-- Looking up an id in a table after replacing that id's entry yields the
new session exactly when the id was present. -/
theorem findSession_setSession (t : SessionTable) (sid : String) (s : Session) :
    findSession (setSession t sid s) sid = (findSession t sid).map (fun _ => s) := by
  induction t with
  | nil => rfl
  | cons p rest ih =>
      by_cases h : p.1 = sid <;> simp [findSession, setSession, h, ih]

/-- Every character a hyphenated UUID can contain is legal in a session id. -/
theorem uuidCharOk_sessionIdCharOk (c : Char) (h : uuidCharOk c = true) :
    sessionIdCharOk c = true := by
  simp [uuidCharOk] at h
  rcases h with (h | ⟨h1, h2⟩) | h
  · simp [sessionIdCharOk, Char.isAlphanum, h]
  · have hlow : c.isLower = true := by
      simp [Char.isLower, Char.le_def, UInt32.le_def, BitVec.le_def] at h1 h2 ⊢
      omega
    simp [sessionIdCharOk, Char.isAlphanum, Char.isAlpha, hlow]
  · simp [sessionIdCharOk, h]

/-- UUID characters are ASCII, hence one UTF-8 byte each. -/
theorem uuidCharOk_utf8Size (c : Char) (h : uuidCharOk c = true) : c.utf8Size = 1 := by
  have hle : c.val ≤ 127 := by
    simp [uuidCharOk, Char.isDigit] at h
    rcases h with (⟨h1, h2⟩ | ⟨h1, h2⟩) | h
    · simp [Char.le_def, UInt32.le_def, BitVec.le_def] at h2 ⊢; omega
    · simp [Char.le_def, UInt32.le_def, BitVec.le_def] at h2 ⊢; omega
    · subst h; decide
  unfold Char.utf8Size
  rw [if_pos]
  exact hle

/-- Folding UTF-8 sizes over all-ASCII text counts the characters. -/
theorem foldl_size_all_one :
    ∀ (cs : List Char) (n : Nat), (∀ c ∈ cs, c.utf8Size = 1) →
      cs.foldl (fun n c => n + c.utf8Size) n = n + cs.length := by
  intro cs
  induction cs with
  | nil => intro n _; simp
  | cons c rest ih =>
      intro n h
      have hc : c.utf8Size = 1 := h c (by simp)
      simp only [List.foldl_cons, List.length_cons, hc]
      rw [ih (n + 1) (fun d hd => h d (by simp [hd]))]
      omega

/-- C9: every id `create_session` generates — the fixed `orchestra-` prefix
followed by a 36-character hyphenated UUID — satisfies
`validate_session_id`, so manager-created sessions are always operable
through validated caller-facing commands. -/
theorem c9_generated_ids_valid :
    ∀ uuid : String, uuid.data.all uuidCharOk = true → uuid.data.length = 36 →
      validate_session_id (create_session_id uuid) = .ok () := by
  intro u hall hlen
  have hdata : (create_session_id u).data = "orchestra-".data ++ u.data :=
    String.data_append "orchestra-" u
  have hpref : starts_with (create_session_id u) "orchestra-" = true := by
    simp [starts_with, hdata, List.isPrefixOf_iff_prefix]
  have hchars : (create_session_id u).data.all sessionIdCharOk = true := by
    rw [hdata, List.all_append]
    simp only [Bool.and_eq_true]
    refine ⟨by decide, ?_⟩
    simp only [List.all_eq_true] at hall ⊢
    exact fun c hc => uuidCharOk_sessionIdCharOk c (hall c hc)
  have hsize : utf8Len (create_session_id u) = 46 := by
    show (create_session_id u).data.foldl (fun n c => n + c.utf8Size) 0 = 46
    rw [hdata, List.foldl_append]
    have h10 : ("orchestra-".data.foldl (fun n c => n + c.utf8Size) 0) = 10 := by decide
    rw [h10]
    rw [foldl_size_all_one u.data 10 (fun c hc => uuidCharOk_utf8Size c (by
      simp only [List.all_eq_true] at hall
      exact hall c hc))]
    omega
  unfold validate_session_id
  simp [hpref, hchars, hsize]

/-- C9 witness: a concrete hyphenated UUID produces a valid session id. -/
theorem c9_witness :
    validate_session_id (create_session_id "123e4567-e89b-12d3-a456-426614174000") = .ok () :=
  c9_generated_ids_valid "123e4567-e89b-12d3-a456-426614174000" (by decide) (by decide)

/-- A tracked session already in the terminal `completed` status. -/
def exSessionCompleted : Session :=
  ⟨"orchestra-x", "n1", "claude", .completed, 0, some 0, none, some 7, 3, none, none⟩

/-- A table holding only the completed example session. -/
def exTableC : SessionTable := [("orchestra-x", exSessionCompleted)]

/-- A tracked session in the initial `running` status. -/
def exSessionRunning : Session :=
  ⟨"orchestra-r", "n2", "codex", .running, 0, none, none, none, 0, none, none⟩

/-- A table holding only the running example session. -/
def exTableR : SessionTable := [("orchestra-r", exSessionRunning)]

/-- Calling `mark_awaiting_input` on a session whose session is already
awaiting input changes nothing. -/
theorem mark_awaiting_noop (t : SessionTable) (sid : String) (q : Option String)
    (s : Session) (hfind : findSession t sid = some s)
    (hst : s.status = SessionStatus.awaitingInput) :
    mark_awaiting_input t sid q = t := by
  unfold mark_awaiting_input
  rw [hfind]
  simp [hst]

/-- C2 counterexample: the claim fails as stated. On a session whose status
is `completed`, `mark_awaiting_input` sets the status to `awaitingInput`
(leaving the terminal set), and `mark_completed` with a nonzero exit code
moves `completed` to `failed` (not `completed` "respectively"). -/
theorem c2_counterexample :
    (findSession exTableC "orchestra-x").map Session.status = some SessionStatus.completed ∧
    (findSession (mark_awaiting_input exTableC "orchestra-x" none) "orchestra-x").map
        Session.status = some SessionStatus.awaitingInput ∧
    some SessionStatus.awaitingInput ≠ some SessionStatus.completed ∧
    some SessionStatus.awaitingInput ≠ some SessionStatus.failed ∧
    (findSession (mark_completed exTableC "orchestra-x" 1) "orchestra-x").map
        Session.status = some SessionStatus.failed := by
  decide

/-- C2 amended: for a session in a terminal status (`completed` or
`failed`), `update_staleness` leaves the status unchanged and
`mark_completed` always leaves it terminal (`completed` iff the exit code
is 0); `mark_awaiting_input`, however, is not guarded by terminal states
and moves the session to `awaitingInput` (the monitor only invokes it on
sessions it observed as running). -/
theorem c2_terminal_status_ops :
    ∀ (t : SessionTable) (sid : String) (s : Session) (code : Int) (h : Nat)
      (q : Option String),
      findSession t sid = some s →
      (s.status = SessionStatus.completed ∨ s.status = SessionStatus.failed) →
      ((findSession (update_staleness t sid h).2 sid).map Session.status = some s.status) ∧
      ((findSession (mark_completed t sid code) sid).map Session.status =
        some (if code = 0 then SessionStatus.completed else SessionStatus.failed)) ∧
      ((findSession (mark_awaiting_input t sid q) sid).map Session.status =
        some SessionStatus.awaitingInput) := by
  intro t sid s code h q hfind hterm
  have hne : s.status ≠ SessionStatus.awaitingInput := by
    rcases hterm with h1 | h1 <;> simp [h1]
  refine ⟨?_, ?_, ?_⟩
  · unfold update_staleness
    rw [hfind]
    by_cases hh : s.last_output_hash = some h
    · simp [hh, findSession_setSession, hfind]
    · simp [hh, hne, findSession_setSession, hfind]
  · unfold mark_completed
    rw [hfind]
    simp [findSession_setSession, hfind]
  · unfold mark_awaiting_input
    rw [hfind]
    simp [hne, findSession_setSession, hfind]

/-- C2 witness: the amended statement applied to a concrete completed
session. -/
theorem c2_witness :
    (findSession (mark_awaiting_input exTableC "orchestra-x" none) "orchestra-x").map
      Session.status = some SessionStatus.awaitingInput :=
  (c2_terminal_status_ops exTableC "orchestra-x" exSessionCompleted 1 7 none rfl
    (Or.inl rfl)).2.2

/-- C4: `update_staleness` with the stored hash increments the stale
counter by exactly one and returns it; with a different hash it resets the
counter to 0, stores the new hash and — exactly when the prior status was
`awaitingInput` — transitions back to `running` and reports
`cleared_awaiting_input = true`. -/
theorem c4_update_staleness_behavior :
    ∀ (t : SessionTable) (sid : String) (s : Session) (h : Nat),
      findSession t sid = some s →
      (s.last_output_hash = some h →
        update_staleness t sid h =
          (some ⟨s.stale_poll_count + 1, true, s.status, false⟩,
           setSession t sid { s with stale_poll_count := s.stale_poll_count + 1 })) ∧
      (s.last_output_hash ≠ some h →
        update_staleness t sid h =
          (some ⟨0, false,
              if s.status = SessionStatus.awaitingInput then SessionStatus.running
              else s.status,
              decide (s.status = SessionStatus.awaitingInput)⟩,
           setSession t sid { s with
             stale_poll_count := 0,
             last_output_hash := some h,
             status :=
               if s.status = SessionStatus.awaitingInput then SessionStatus.running
               else s.status,
             detected_question :=
               if s.status = SessionStatus.awaitingInput then none
               else s.detected_question })) := by
  intro t sid s h hfind
  constructor
  · intro hh
    unfold update_staleness
    rw [hfind]
    simp [hh]
  · intro hh
    unfold update_staleness
    rw [hfind]
    by_cases hst : s.status = SessionStatus.awaitingInput
    · simp [hh, hst]
    · simp [hh, hst]

/-- C4 witness: polled twice with the stored hash 7, the example session's
counter goes from 3 to 4 and the update reports it. -/
theorem c4_witness :
    update_staleness exTableC "orchestra-x" 7 =
      (some ⟨exSessionCompleted.stale_poll_count + 1, true, exSessionCompleted.status, false⟩,
       setSession exTableC "orchestra-x"
         { exSessionCompleted with
           stale_poll_count := exSessionCompleted.stale_poll_count + 1 }) :=
  (c4_update_staleness_behavior exTableC "orchestra-x" exSessionCompleted 7 rfl).1 rfl

/-- C8: `mark_awaiting_input` is idempotent — a second call with no
question leaves the table exactly as after the first call, so the status
stays `awaitingInput` and a previously recorded detected question is not
overwritten with `none`. -/
theorem c8_mark_awaiting_input_idempotent :
    ∀ (t : SessionTable) (sid : String) (q : Option String) (s : Session),
      findSession t sid = some s →
      mark_awaiting_input (mark_awaiting_input t sid q) sid none =
        mark_awaiting_input t sid q ∧
      (findSession (mark_awaiting_input t sid q) sid).map Session.status =
        some SessionStatus.awaitingInput ∧
      (findSession (mark_awaiting_input t sid q) sid).map Session.detected_question =
        some (if s.status = SessionStatus.awaitingInput then s.detected_question else q) := by
  intro t sid q s hfind
  by_cases hst : s.status = SessionStatus.awaitingInput
  · have h1 : mark_awaiting_input t sid q = t := mark_awaiting_noop t sid q s hfind hst
    rw [h1]
    exact ⟨mark_awaiting_noop t sid none s hfind hst, by simp [hfind, hst]⟩
  · have h1 : mark_awaiting_input t sid q =
        setSession t sid { s with status := .awaitingInput, detected_question := q } := by
      unfold mark_awaiting_input
      rw [hfind]
      simp [hst]
    have h2 : findSession (mark_awaiting_input t sid q) sid =
        some { s with status := .awaitingInput, detected_question := q } := by
      rw [h1, findSession_setSession, hfind]
      rfl
    exact ⟨mark_awaiting_noop _ sid none _ h2 rfl, by simp [h2, hst]⟩

/-- C8 witness: marking the running example session twice, the second call
with no question, is the same as marking it once. -/
theorem c8_witness :
    mark_awaiting_input (mark_awaiting_input exTableR "orchestra-r" (some "Continue?"))
        "orchestra-r" none =
      mark_awaiting_input exTableR "orchestra-r" (some "Continue?") :=
  (c8_mark_awaiting_input_idempotent exTableR "orchestra-r" (some "Continue?")
    exSessionRunning rfl).1

/-- C10: on an id that is not in the table, `mark_completed` and
`mark_awaiting_input` are silent no-ops, and `update_staleness` returns
`none`; the table is unchanged and no entry is ever inserted. -/
theorem c10_unknown_id_noop :
    ∀ (t : SessionTable) (sid : String) (code : Int) (q : Option String) (h : Nat),
      findSession t sid = none →
      mark_completed t sid code = t ∧
      mark_awaiting_input t sid q = t ∧
      update_staleness t sid h = (none, t) := by
  intro t sid code q h hfind
  refine ⟨?_, ?_, ?_⟩
  · unfold mark_completed
    rw [hfind]
  · unfold mark_awaiting_input
    rw [hfind]
  · unfold update_staleness
    rw [hfind]

/-- C10 witness: the three operations on an untracked id leave the
concrete table untouched. -/
theorem c10_witness :
    mark_completed exTableR "orchestra-missing" 0 = exTableR ∧
    mark_awaiting_input exTableR "orchestra-missing" none = exTableR ∧
    update_staleness exTableR "orchestra-missing" 5 = (none, exTableR) :=
  c10_unknown_id_noop exTableR "orchestra-missing" 0 none 5 rfl

/-! ## Input detection (`src/src-tauri/src/sessions/input_detection.rs`)

The Rust code accumulates an `f32` confidence from the constants 0.4, 0.3,
0.35, 0.25 and compares it against 0.3, 0.5 and 1.0. The embedding scales
everything by 100 into `Nat` (40, 30, 35, 25 against 30, 50, 100). This is
decision-equivalent to the `f32` computation: every reachable exact sum
`0.4k + 0.3a + 0.35b + 0.25c` (k ≤ 5, a b c ∈ {0,1}) lies at distance 0
or at least 0.05 from each threshold, while the accumulated `f32` rounding
error stays below 1e-6, and the only sums hitting a threshold exactly
(0.3 alone against the strict `> 0.3` test, 0.4+0.35+0.25 = 1.0 against
the cap) compare identically in both arithmetics. -/

/-- Rust `str::lines` helper: split a character list at every newline. -/
def splitNL : List Char → List (List Char)
  | [] => [[]]
  | c :: rest =>
    match splitNL rest with
    | [] => [[]]
    | w :: ws => if c = '\n' then [] :: w :: ws else (c :: w) :: ws

/-- Drop one trailing carriage return (the `\r` of an `\r\n` line ending). -/
def stripCR (cs : List Char) : List Char :=
  match cs.getLast? with
  | some c => if c = '\r' then cs.dropLast else cs
  | none => cs

/-- Rust `str::lines`: newline-separated segments, a final newline produces
no trailing empty line, and a `\r` before a newline is stripped. -/
def rustLines (s : String) : List String :=
  if s.data.isEmpty then []
  else
    let parts := splitNL s.data
    let body := parts.dropLast.map stripCR
    let last := parts.getLast?.getD []
    (if last.isEmpty then body else body ++ [last]).map List.asString

/-- Rust `str::trim_start` (ASCII-whitespace model, see header). -/
def rustTrimStart (s : String) : String := (s.data.dropWhile Char.isWhitespace).asString

/-- Rust `str::trim` (ASCII-whitespace model, see header). -/
def rustTrim (s : String) : String :=
  (((s.data.dropWhile Char.isWhitespace).reverse.dropWhile Char.isWhitespace).reverse).asString

/-- Rust `str::to_lowercase` (ASCII model; every pattern it is applied to
is ASCII). -/
def lowerStr (s : String) : String := (s.data.map Char.toLower).asString

/-- Rust `Vec::join("\n")`. -/
def joinNL : List String → String
  | [] => ""
  | [s] => s
  | s :: s2 :: rest => s ++ "\n" ++ joinNL (s2 :: rest)

/-- The `QUESTION_ENDINGS` constant. -/
def QUESTION_ENDINGS : List String := ["?"]

/-- The `PROMPT_INDICATORS` constant. -/
def PROMPT_INDICATORS : List String :=
  ["> ", ">> ", ">>> ", "[y/n]", "[Y/n]", "[y/N]", "(yes/no)", "(y/n)", "[yes/no]",
   "Press Enter", "press enter", "Continue?", "Proceed?", "confirm", "Confirm"]

/-- The `CLAUDE_PATTERNS` constant. -/
def CLAUDE_PATTERNS : List String :=
  ["What would you like", "Would you like me to", "Should I", "Do you want",
   "How would you like", "Which option", "Please choose", "Select one",
   "Enter your", "Type your", "Provide the"]

/-- One line of `has_numbered_choices`: after leading whitespace, one or
more ASCII digits, then `.`/`)`/`:` followed by a whitespace character. -/
def is_choice_line (line : String) : Bool :=
  let trimmed := line.data.dropWhile Char.isWhitespace
  let digits := (trimmed.takeWhile Char.isDigit).length
  if digits = 0 then false
  else
    match trimmed.drop digits with
    | c :: rest =>
        (c = '.' || c = ')' || c = ':') &&
        (match rest with
         | d :: _ => d.isWhitespace
         | [] => false)
    | [] => false

/-- Embedding of `has_numbered_choices`: at least two numbered-choice
lines. -/
def has_numbered_choices (text : String) : Bool :=
  2 ≤ (rustLines text).countP is_choice_line

/-- Embedding of `extract_question`: only the last non-blank line is
inspected (the loop breaks after the first non-empty line), preferring a
line ending in `?`, else a (case-sensitive) indicator or claude-pattern
match. -/
def extract_question (text : String) : Option String :=
  match (rustLines text).reverse.find? (fun l => !(rustTrim l).data.isEmpty) with
  | none => none
  | some line =>
      let trimmed := rustTrim line
      if ends_with trimmed "?" then some trimmed
      else if PROMPT_INDICATORS.any (fun p => strContains trimmed p) then some trimmed
      else if CLAUDE_PATTERNS.any (fun p => strContains trimmed p) then some trimmed
      else none

/-- Result of `detect_input_waiting`; `confidence` is in hundredths of the
Rust `f32` (see the section comment). -/
structure InputDetectionResult where
  waiting_for_input : Bool
  detected_question : Option String
  confidence : Nat
  deriving DecidableEq, Repr

/-- One iteration of the question-mark loop over the trailing lines:
a non-blank trimmed line ending in `?` adds 0.4 and records the first
such question. -/
def qmark_step (st : Nat × Option String) (line : String) : Nat × Option String :=
  let trimmed := rustTrim line
  if trimmed.data.isEmpty then st
  else if QUESTION_ENDINGS.any (fun e => ends_with trimmed e) then
    (st.1 + 40, match st.2 with | none => some trimmed | some q => some q)
  else st

/-- The recent-output window: the last 15 lines rejoined with newlines. -/
def recent_window (output : String) : String :=
  joinNL ((rustLines output).drop ((rustLines output).length - 15))

/-- Embedding of `detect_input_waiting`. -/
def detect_input_waiting (output : String) (agent : String) : InputDetectionResult :=
  let lines := rustLines output
  let recent_output := recent_window output
  let q := (lines.reverse.take 5).foldl qmark_step (0, none)
  let recent_lower := lowerStr recent_output
  let c2 := q.1 +
    (if PROMPT_INDICATORS.any (fun p => strContains recent_lower (lowerStr p)) then 30 else 0)
  let c3 := c2 +
    (if agent = "claude" &&
        CLAUDE_PATTERNS.any (fun p => strContains recent_lower (lowerStr p)) then 35 else 0)
  let c4 := c3 + (if has_numbered_choices recent_output then 25 else 0)
  let dq := match q.2 with
    | some qq => some qq
    | none => if 30 < c4 then extract_question recent_output else none
  let conf := min c4 100
  ⟨decide (50 ≤ conf), dq, conf⟩

/-- The question-mark loop contributes exactly 0.4 per non-blank trailing
line that ends with a question mark. -/
theorem qmark_foldl_count :
    ∀ (L : List String) (c : Nat) (d : Option String),
      (L.foldl qmark_step (c, d)).1 =
        c + 40 * L.countP (fun l => !(rustTrim l).data.isEmpty && ends_with (rustTrim l) "?") := by
  intro L
  induction L with
  | nil => intro c d; simp
  | cons l rest ih =>
      intro c d
      have hstep : qmark_step (c, d) l =
          if (!(rustTrim l).data.isEmpty && ends_with (rustTrim l) "?") then
            (c + 40, match d with | none => some (rustTrim l) | some q => some q)
          else (c, d) := by
        unfold qmark_step
        by_cases h1 : (rustTrim l).data.isEmpty <;>
          by_cases h2 : ends_with (rustTrim l) "?" <;>
          simp [h1, h2, QUESTION_ENDINGS]
      rw [List.foldl_cons, hstep, List.countP_cons]
      by_cases hc : (!(rustTrim l).data.isEmpty && ends_with (rustTrim l) "?") = true
      · rw [if_pos hc]
        cases d <;> · rw [ih]; simp [hc]; omega
      · rw [if_neg hc, ih]
        simp [hc]

/-- Claim C5 read literally, for comparison with the code: a single +0.4
bonus when the trailing (last non-blank) line ends with a question mark,
plus the three other bonuses, capped at 1.0. -/
def claimed_confidence (output agent : String) : Nat :=
  let qbonus :=
    match (rustLines output).reverse.find? (fun l => !(rustTrim l).data.isEmpty) with
    | some l => if ends_with (rustTrim l) "?" then 40 else 0
    | none => 0
  let ind :=
    if PROMPT_INDICATORS.any (fun p =>
      strContains (lowerStr (recent_window output)) (lowerStr p)) then 30 else 0
  let cl :=
    if agent = "claude" && CLAUDE_PATTERNS.any (fun p =>
      strContains (lowerStr (recent_window output)) (lowerStr p)) then 35 else 0
  let nm := if has_numbered_choices (recent_window output) then 25 else 0
  min (qbonus + ind + cl + nm) 100

/-- Waiting-for-input according to the literal reading of claim C5. -/
def claimed_waiting (output agent : String) : Bool :=
  decide (50 ≤ claimed_confidence output agent)

/-- C5 counterexample: on `"a?\nb?"` the code adds 0.4 twice (once per
trailing question line, confidence 0.8, waiting), while the claim's single
+0.4 bonus yields 0.4 and no other signal fires, so the claimed formula
says not waiting. -/
theorem c5_counterexample :
    (detect_input_waiting "a?\nb?" "codex").waiting_for_input = true ∧
    (detect_input_waiting "a?\nb?" "codex").confidence = 80 ∧
    claimed_waiting "a?\nb?" "codex" = false ∧
    claimed_confidence "a?\nb?" "codex" = 40 := by
  decide

/-- C5 amended: the confidence adds 0.4 for each of the last five lines
whose trimmed text is non-blank and ends with `?` (not a single +0.4),
plus 0.3 for a case-insensitive prompt indicator in the 15-line window,
plus 0.35 for a claude-specific pattern when the agent is `claude`, plus
0.25 when two or more lines match the numbered-choice pattern, capped at
1.0; waiting-for-input holds exactly when the confidence reaches 0.5. -/
theorem c5_detect_confidence :
    ∀ (output agent : String),
      (detect_input_waiting output agent).confidence =
        min
          (40 * ((rustLines output).reverse.take 5).countP
              (fun l => !(rustTrim l).data.isEmpty && ends_with (rustTrim l) "?") +
           (if PROMPT_INDICATORS.any (fun p =>
                strContains (lowerStr (recent_window output)) (lowerStr p))
            then 30 else 0) +
           (if agent = "claude" && CLAUDE_PATTERNS.any (fun p =>
                strContains (lowerStr (recent_window output)) (lowerStr p))
            then 35 else 0) +
           (if has_numbered_choices (recent_window output) then 25 else 0))
          100 ∧
      ((detect_input_waiting output agent).waiting_for_input = true ↔
        50 ≤ (detect_input_waiting output agent).confidence) := by
  intro output agent
  constructor
  · unfold detect_input_waiting
    simp only []
    rw [qmark_foldl_count]
    simp
  · unfold detect_input_waiting
    simp

/-! ## Checks engine (`src/src-tauri/src/sessions/checks.rs`)

Individual check bodies touch the file system and spawn subprocesses, so
`run_single_check_once` is modelled by an oracle `once : Nat → CheckResult`
giving the outcome of its k-th invocation; the human-approval arm is pure
and embedded exactly. The retry loop itself is embedded as `check_loop`. -/

/-- Embedding of the `Check` enum (tagged check specifications). -/
inductive Check where
  | fileExists (id : String) (path : String) (auto_retry : Option Bool)
      (max_retries : Option Nat)
  | command (id : String) (cmd : String) (auto_retry : Option Bool)
      (max_retries : Option Nat)
  | contains (id : String) (path : String) (pat : String) (auto_retry : Option Bool)
      (max_retries : Option Nat)
  | humanApproval (id : String)
  | testRunner (id : String) (framework : String) (auto_retry : Option Bool)
      (max_retries : Option Nat)
  deriving DecidableEq, Repr

/-- Embedding of `Check::retry_config`: defaults `auto_retry` to false and
clamps `max_retries.unwrap_or(2)` to the hard ceiling 10; human approval
never retries. -/
def Check.retry_config : Check → Bool × Nat
  | .fileExists _ _ ar mr => (ar.getD false, min (mr.getD 2) 10)
  | .command _ _ ar mr => (ar.getD false, min (mr.getD 2) 10)
  | .contains _ _ _ ar mr => (ar.getD false, min (mr.getD 2) 10)
  | .testRunner _ _ ar mr => (ar.getD false, min (mr.getD 2) 10)
  | .humanApproval _ => (false, 0)

/-- The raw `maxRetries` field with its default of 2 applied. -/
def Check.max_retries_field : Check → Nat
  | .fileExists _ _ _ mr => mr.getD 2
  | .command _ _ _ mr => mr.getD 2
  | .contains _ _ _ _ mr => mr.getD 2
  | .testRunner _ _ _ mr => mr.getD 2
  | .humanApproval _ => 0

/-- Whether a check is the human-approval variant. -/
def Check.is_human_approval : Check → Bool
  | .humanApproval _ => true
  | _ => false

/-- Embedding of the `CheckResult` record. -/
structure CheckResult where
  id : String
  check_type : String
  passed : Bool
  message : Option String
  deriving DecidableEq, Repr

/-- The human-approval arm of `run_single_check_once`, which is pure:
always fails with the fixed message. -/
def run_single_check_once_human (id : String) : CheckResult :=
  ⟨id, "human_approval", false, some "Awaiting human approval"⟩

/-- Embedding of the retry loop in `run_single_check`: run the check,
return on pass, return on exhausted retries (or disabled auto-retry),
otherwise try again. Returns the final result and how many times the
check body ran. -/
def check_loop (once : Nat → CheckResult) (auto_retry : Bool) (max_retries attempt : Nat) :
    CheckResult × Nat :=
  let result := once attempt
  if result.passed then (result, attempt + 1)
  else if auto_retry = false ∨ max_retries ≤ attempt then (result, attempt + 1)
  else check_loop once auto_retry max_retries (attempt + 1)
termination_by max_retries + 1 - attempt
decreasing_by
  push_neg at *
  omega

/-- Embedding of `run_single_check`: the retry loop started at attempt 0
with the check's retry configuration. -/
def run_single_check (c : Check) (once : Nat → CheckResult) : CheckResult × Nat :=
  check_loop once c.retry_config.1 c.retry_config.2 0

/-- Full behaviour of the retry loop: the run count is bounded by
`max_retries + 1`, the returned result is the last execution, every
earlier execution failed, with auto-retry the loop only stops early on a
pass, and without auto-retry it runs exactly once. -/
theorem check_loop_spec :
    ∀ (fuel : Nat) (once : Nat → CheckResult) (auto : Bool) (mr attempt : Nat),
      mr + 1 - attempt ≤ fuel → attempt ≤ mr →
      (check_loop once auto mr attempt).2 ≤ mr + 1 ∧
      attempt < (check_loop once auto mr attempt).2 ∧
      (check_loop once auto mr attempt).1 = once ((check_loop once auto mr attempt).2 - 1) ∧
      (∀ j, attempt ≤ j → j + 1 < (check_loop once auto mr attempt).2 →
        (once j).passed = false) ∧
      (auto = true → (check_loop once auto mr attempt).1.passed = true ∨
        (check_loop once auto mr attempt).2 = mr + 1) ∧
      (auto = false → (check_loop once auto mr attempt).2 = attempt + 1) := by
  intro fuel
  induction fuel with
  | zero => intro once auto mr attempt h1 h2; omega
  | succ f ih =>
      intro once auto mr attempt h1 h2
      rw [check_loop]
      by_cases hp : (once attempt).passed = true
      · simp only [hp, if_true]
        refine ⟨by omega, by omega, by simp, ?_, by simp, by simp⟩
        intro j hj1 hj2
        simp at hj2
        omega
      · rw [if_neg (by simp [hp])]
        by_cases hstop : (auto = false ∨ mr ≤ attempt)
        · rw [if_pos hstop]
          have hmr : auto = true → mr ≤ attempt := by
            intro hauto
            rcases hstop with h | h
            · rw [hauto] at h
              exact absurd h (by simp)
            · exact h
          refine ⟨by omega, by omega, by simp, ?_, ?_, by intro _; rfl⟩
          · intro j hj1 hj2
            simp at hj2
            omega
          · intro hauto
            right
            have := hmr hauto
            simp
            omega
        · rw [if_neg hstop]
          push_neg at hstop
          obtain ⟨ha, hb, hc, hd, he, hf⟩ := ih once auto mr (attempt + 1) (by omega) (by omega)
          refine ⟨ha, by omega, hc, ?_, he, ?_⟩
          · intro j hj1 hj2
            by_cases hje : j = attempt
            · subst hje
              simpa using hp
            · exact hd j (by omega) hj2
          · intro hfa
            exact absurd hfa hstop.1

/-- C6 counterexample: the human-approval failure message in the code is
`"Awaiting human approval"`, not the claimed all-lowercase
`"awaiting human approval"`. -/
theorem c6_counterexample :
    (run_single_check_once_human "approve").message = some "Awaiting human approval" ∧
    some "Awaiting human approval" ≠ some "awaiting human approval" ∧
    (run_single_check (.humanApproval "approve")
        (fun _ => run_single_check_once_human "approve")).1.message ≠
      some "awaiting human approval" := by
  refine ⟨rfl, by decide, ?_⟩
  have h0 := check_loop_spec 1 (fun _ => run_single_check_once_human "approve")
    false 0 0 (by omega) (by omega)
  have h1 : (run_single_check (.humanApproval "approve")
      (fun _ => run_single_check_once_human "approve")).1 =
        run_single_check_once_human "approve" := h0.2.2.1
  rw [h1]
  decide

/-- C6 amended: a human-approval check always produces `passed = false`
with the message `"Awaiting human approval"` (capital A), its retry
configuration is `(false, 0)` so it is executed exactly once and never
auto-retried, and no number of automatic re-runs of the loop can ever make
it pass. -/
theorem c6_human_approval_never_passes :
    ∀ (id : String) (auto : Bool) (mr : Nat),
      (run_single_check_once_human id).passed = false ∧
      (run_single_check_once_human id).message = some "Awaiting human approval" ∧
      (Check.humanApproval id).retry_config = (false, 0) ∧
      (run_single_check (.humanApproval id) (fun _ => run_single_check_once_human id)).2 = 1 ∧
      ((check_loop (fun _ => run_single_check_once_human id) auto mr 0).1).passed = false := by
  intro id auto mr
  have hspec := check_loop_spec (mr + 1) (fun _ => run_single_check_once_human id)
    auto mr 0 (by omega) (by omega)
  refine ⟨rfl, rfl, rfl, ?_, ?_⟩
  · have h0 := check_loop_spec 1 (fun _ => run_single_check_once_human id)
      false 0 0 (by omega) (by omega)
    exact h0.2.2.2.2.2 rfl
  · rw [hspec.2.2.1]
    rfl

/-- C7: with auto-retry enabled the check body runs at most
`1 + min(maxRetries, 10)` times, every execution before the last one
failed, the reported result is the last execution (so the first passing
attempt is reported, and a passing attempt within the budget guarantees a
passing report); with auto-retry disabled the body runs exactly once. -/
theorem c7_retry_budget :
    ∀ (c : Check) (once : Nat → CheckResult),
      (c.retry_config.1 = true →
        (run_single_check c once).2 ≤ 1 + c.retry_config.2 ∧
        (run_single_check c once).1 = once ((run_single_check c once).2 - 1) ∧
        (∀ j, j + 1 < (run_single_check c once).2 → (once j).passed = false) ∧
        ((∃ k, k ≤ c.retry_config.2 ∧ (once k).passed = true) →
          ((run_single_check c once).1).passed = true)) ∧
      (c.retry_config.1 = false →
        (run_single_check c once).2 = 1 ∧ (run_single_check c once).1 = once 0) ∧
      (c.is_human_approval = false →
        c.retry_config.2 = min c.max_retries_field 10) := by
  intro c once
  simp only [run_single_check]
  obtain ⟨ha, hb, hc, hd, he, hf⟩ :=
    check_loop_spec (c.retry_config.2 + 1) once c.retry_config.1 c.retry_config.2 0
      (by omega) (by omega)
  refine ⟨?_, ?_, ?_⟩
  · intro hauto
    refine ⟨by omega, hc, fun j hj => hd j (by omega) hj, ?_⟩
    rintro ⟨k, hk, hkp⟩
    rcases he hauto with hpass | hcount
    · exact hpass
    · by_cases hres :
        ((check_loop once c.retry_config.1 c.retry_config.2 0).1).passed = true
      · exact hres
      · exfalso
        rcases Nat.lt_or_ge k c.retry_config.2 with hlt | hge
        · have hfail := hd k (by omega) (by omega)
          rw [hfail] at hkp
          cases hkp
        · have hkeq : k = c.retry_config.2 := by omega
          subst hkeq
          rw [hc, hcount] at hres
          simp at hres
          rw [hres] at hkp
          cases hkp
  · intro hfalse
    refine ⟨hf hfalse, ?_⟩
    rw [hc, hf hfalse]
  · intro hnh
    cases c <;> simp [Check.retry_config, Check.max_retries_field] at hnh ⊢

/-- Demonstration of the spec scenario for the retry policy: a
retry-enabled check (default budget) that fails on attempts 0 and 1 and
passes on attempt 2 runs the body three times and reports a pass. -/
theorem retry_demo_third_attempt :
    (run_single_check (Check.command "t" "make test" (some true) none)
        (fun k => ⟨"t", "command", decide (k = 2), none⟩)).1.passed = true ∧
    (run_single_check (Check.command "t" "make test" (some true) none)
        (fun k => ⟨"t", "command", decide (k = 2), none⟩)).2 = 3 := by
  constructor <;>
    · simp only [run_single_check, Check.retry_config]
      rw [check_loop, check_loop, check_loop]
      simp

/-! ## Command builder (`src/src-tauri/src/sessions/manager.rs`)

`build_agent_command` validates its inputs, builds an argv for the chosen
agent, renders it to one shell string with every argument individually
single-quote-escaped, and wraps it with the exit-sentinel plumbing. To
settle the quoting claim, a POSIX word splitter for the produced fragment
(`shSplit`: space-separated words, single-quoted segments, backslash
escapes) is defined and the rendering is proved to round-trip through
it. -/

/-- The agent allow-list. -/
inductive AgentKind where
  | claude
  | codex
  | gemini
  deriving DecidableEq, Repr

/-- Embedding of `parse_agent`. -/
def parse_agent (agent : String) : Except String AgentKind :=
  if agent = "claude" then .ok .claude
  else if agent = "codex" then .ok .codex
  else if agent = "gemini" then .ok .gemini
  else .error ("Unsupported agent type: " ++ agent)

/-- The program word each agent kind invokes. -/
def agentProg : AgentKind → String
  | .claude => "claude"
  | .codex => "codex"
  | .gemini => "gemini"

/-- Characters `validate_model` accepts: ASCII alphanumerics and
`. _ - : /`. -/
def modelCharOk (c : Char) : Bool :=
  c.isAlphanum || c = '.' || c = '_' || c = '-' || c = ':' || c = '/'

/-- Embedding of `validate_model`. -/
def validate_model (m : String) : Except String Unit :=
  if m.data.isEmpty then .error "Model must not be empty"
  else if 128 < utf8Len m then .error "Model is too long"
  else if !(m.data.all modelCharOk) then .error "Model contains invalid characters"
  else .ok ()

/-- Embedding of the per-argument validation loop in
`build_agent_command`: each extra argument must be non-empty, at most 1024
bytes and free of NUL characters. -/
def validate_extra_args : List String → Except String Unit
  | [] => .ok ()
  | a :: rest =>
      if a.data.isEmpty then .error "extraArgs contains an empty argument"
      else if 1024 < utf8Len a then .error "extraArgs contains an argument that is too long"
      else if a.data.contains (Char.ofNat 0) then
        .error "extraArgs contains an invalid character"
      else validate_extra_args rest

/-- The character-level effect of the source replacement: each single
quote becomes the four characters quote, backslash, quote, quote; every
other character is kept. -/
def escQuoteChar (c : Char) : List Char :=
  if c = squote then [squote, bslash, squote, squote] else [c]

/-- Embedding of `sh_escape_single_arg`: wrap in single quotes after
rewriting each embedded single quote as quote-backslash-quote-quote. -/
def sh_escape_single_arg (s : String) : String :=
  (squote :: (s.data.flatMap escQuoteChar ++ [squote])).asString

/-- Embedding of the argv construction in `build_agent_command`: program
word, fixed flags, optional model flag, extra arguments, then the trimmed
prompt as a positional (claude/codex) or `-i` (gemini) argument. -/
def build_agent_argv (agent : AgentKind) (model : Option String)
    (extra_args : List String) (prompt : String) : List String :=
  let p := rustTrim prompt
  match agent with
  | .claude =>
      ["claude", "--allowedTools", "Bash,Read,Write,Edit,Glob,Grep"] ++
        (match model with | some m => ["--model", m] | none => []) ++
        extra_args ++ (if p.data.isEmpty then [] else [p])
  | .codex =>
      ["codex"] ++
        (match model with | some m => ["--model", m] | none => []) ++
        extra_args ++ (if p.data.isEmpty then [] else [p])
  | .gemini =>
      ["gemini"] ++
        (match model with | some m => ["-m", m] | none => []) ++
        extra_args ++ (if p.data.isEmpty then [] else ["-i", p])

/-- Rendering an argv to one shell string: the program word followed by
each argument escaped and space-separated (the `push`/`push_str` loop). -/
def renderArgv : List String → String
  | [] => ""
  | prog :: args => args.foldl (fun cmd a => cmd ++ " " ++ sh_escape_single_arg a) prog

/-- The sentinel path derived from the session id. -/
def exit_file_path (session_id : String) : String :=
  "/tmp/orchestra-sessions/" ++ session_id ++ ".exit"

/-- Embedding of `build_agent_command`: validation, argv construction,
escaped rendering and the sentinel/banner/shell wrapper. -/
def build_agent_command (session_id : String) (agent : AgentKind) (model : Option String)
    (extra_args : Option (List String)) (prompt : String) : Except String String :=
  let exit_file := exit_file_path session_id
  match (match model with | some m => validate_model m | none => .ok ()) with
  | .error e => .error e
  | .ok _ =>
    let ea := extra_args.getD []
    if 64 < ea.length then .error "Too many extraArgs (max 64)"
    else
      match validate_extra_args ea with
      | .error e => .error e
      | .ok _ =>
          match build_agent_argv agent model ea prompt with
          | [] => .error "empty argv"
          | prog :: args =>
              .ok ("mkdir -p /tmp/orchestra-sessions && " ++ renderArgv (prog :: args) ++
                " ; echo $? > " ++ squoteS ++ exit_file ++ squoteS ++
                " && echo " ++ squoteS ++ "\\nâœ“ Session ended. Type exit to close." ++
                squoteS ++ " && exec $\x7bSHELL:-/bin/bash\x7d")

/-- A POSIX-style word splitter for the rendered fragment: words are
separated by spaces, single quotes delimit literal segments, and a
backslash escapes the next character; an unterminated quote or trailing
backslash fails. Arguments: input, inside-quote flag, current word,
word-started flag, accumulated words. -/
def shSplit : List Char → Bool → List Char → Bool → List (List Char) →
    Option (List (List Char))
  | [], true, _, _, _ => none
  | [], false, cur, started, acc => some (acc ++ if started then [cur] else [])
  | c :: rest, true, cur, _, acc =>
      if c = squote then shSplit rest false cur true acc
      else shSplit rest true (cur ++ [c]) true acc
  | c :: rest, false, cur, started, acc =>
      if c = squote then shSplit rest true cur true acc
      else if c = ' ' then shSplit rest false [] false (acc ++ if started then [cur] else [])
      else if c = bslash then
        match rest with
        | [] => none
        | d :: rest2 => shSplit rest2 false (cur ++ [d]) true acc
      else shSplit rest false (cur ++ [c]) true acc

/-- Shell word splitting of a full string. -/
def shellWords (s : String) : Option (List String) :=
  (shSplit s.data false [] false []).map (fun ws => ws.map List.asString)

/-- The characters the space-separated escaped arguments contribute to the
rendered command. -/
def renderArgsChars (args : List String) : List Char :=
  args.flatMap (fun a => ' ' :: (sh_escape_single_arg a).data)

theorem bslash_ne_squote : bslash ≠ squote := by decide

theorem bslash_ne_space : bslash ≠ ' ' := by decide

theorem space_ne_squote : (' ' : Char) ≠ squote := by decide

theorem escQuoteChar_squote : escQuoteChar squote = [squote, bslash, squote, squote] := by
  simp [escQuoteChar]

theorem escQuoteChar_other (c : Char) (h : c ≠ squote) : escQuoteChar c = [c] := by
  simp [escQuoteChar, h]

theorem shSplit_inq_squote (rest cur : List Char) (b : Bool) (acc : List (List Char)) :
    shSplit (squote :: rest) true cur b acc = shSplit rest false cur true acc := by
  rw [shSplit.eq_3, if_pos rfl]

theorem shSplit_inq_other (c : Char) (h : c ≠ squote) (rest cur : List Char) (b : Bool)
    (acc : List (List Char)) :
    shSplit (c :: rest) true cur b acc = shSplit rest true (cur ++ [c]) true acc := by
  rw [shSplit.eq_3, if_neg h]

theorem shSplit_unq_squote (rest cur : List Char) (st : Bool) (acc : List (List Char)) :
    shSplit (squote :: rest) false cur st acc = shSplit rest true cur true acc := by
  cases rest with
  | nil => rw [shSplit.eq_4, if_pos rfl]
  | cons d r2 => rw [shSplit.eq_5, if_pos rfl]

theorem shSplit_unq_space (rest cur : List Char) (st : Bool) (acc : List (List Char)) :
    shSplit (' ' :: rest) false cur st acc =
      shSplit rest false [] false (acc ++ if st then [cur] else []) := by
  cases rest with
  | nil => rw [shSplit.eq_4, if_neg space_ne_squote, if_pos rfl]
  | cons d r2 => rw [shSplit.eq_5, if_neg space_ne_squote, if_pos rfl]

theorem shSplit_unq_bslash (d : Char) (rest2 cur : List Char) (st : Bool)
    (acc : List (List Char)) :
    shSplit (bslash :: d :: rest2) false cur st acc =
      shSplit rest2 false (cur ++ [d]) true acc := by
  rw [shSplit.eq_5, if_neg bslash_ne_squote, if_neg bslash_ne_space, if_pos rfl]

theorem shSplit_unq_plain (c : Char) (h1 : c ≠ squote) (h2 : c ≠ ' ') (h3 : c ≠ bslash)
    (rest cur : List Char) (st : Bool) (acc : List (List Char)) :
    shSplit (c :: rest) false cur st acc = shSplit rest false (cur ++ [c]) true acc := by
  cases rest with
  | nil => rw [shSplit.eq_4, if_neg h1, if_neg h2, if_neg h3]
  | cons d r2 => rw [shSplit.eq_5, if_neg h1, if_neg h2, if_neg h3]

theorem shSplit_inq_esc :
    ∀ (cs rest cur : List Char) (acc : List (List Char)),
      shSplit (cs.flatMap escQuoteChar ++ rest) true cur true acc =
        shSplit rest true (cur ++ cs) true acc := by
  intro cs
  induction cs with
  | nil => intro rest cur acc; simp
  | cons c cs2 ih =>
      intro rest cur acc
      by_cases hc : c = squote
      · subst hc
        rw [List.flatMap_cons, escQuoteChar_squote, List.append_assoc]
        simp only [List.cons_append, List.nil_append]
        rw [shSplit_inq_squote, shSplit_unq_bslash, shSplit_unq_squote, ih]
        simp
      · rw [List.flatMap_cons, escQuoteChar_other c hc, List.append_assoc]
        simp only [List.cons_append, List.nil_append]
        rw [shSplit_inq_other c hc, ih]
        simp

theorem shSplit_escaped_arg (a : String) (rest cur : List Char) (st : Bool)
    (acc : List (List Char)) :
    shSplit ((sh_escape_single_arg a).data ++ rest) false cur st acc =
      shSplit rest false (cur ++ a.data) true acc := by
  show shSplit ((squote :: (a.data.flatMap escQuoteChar ++ [squote])) ++ rest)
      false cur st acc = _
  rw [List.cons_append, shSplit_unq_squote, List.append_assoc, shSplit_inq_esc,
    List.cons_append, List.nil_append, shSplit_inq_squote]

theorem shSplit_args :
    ∀ (args : List String) (cur : List Char) (acc : List (List Char)),
      shSplit (renderArgsChars args) false cur true acc =
        some (acc ++ [cur] ++ args.map String.data) := by
  intro args
  induction args with
  | nil => intro cur acc; simp [renderArgsChars, shSplit]
  | cons a args2 ih =>
      intro cur acc
      show shSplit ((' ' :: (sh_escape_single_arg a).data) ++ renderArgsChars args2)
        false cur true acc = _
      rw [List.cons_append, shSplit_unq_space, shSplit_escaped_arg, List.nil_append, ih]
      simp

theorem shSplit_plain_leading :
    ∀ (p : List Char) (rest cur : List Char) (acc : List (List Char)),
      (∀ c ∈ p, c ≠ squote ∧ c ≠ ' ' ∧ c ≠ bslash) →
      shSplit (p ++ rest) false cur true acc = shSplit rest false (cur ++ p) true acc := by
  intro p
  induction p with
  | nil => intro rest cur acc _; simp
  | cons c p2 ih =>
      intro rest cur acc h
      obtain ⟨h1, h2, h3⟩ := h c (by simp)
      rw [List.cons_append, shSplit_unq_plain c h1 h2 h3,
        ih rest (cur ++ [c]) acc (fun d hd => h d (by simp [hd]))]
      simp

theorem renderArgv_data (prog : String) (args : List String) :
    (renderArgv (prog :: args)).data = prog.data ++ renderArgsChars args := by
  induction args generalizing prog with
  | nil => simp [renderArgv, renderArgsChars]
  | cons a args2 ih =>
      show (renderArgv ((prog ++ " " ++ sh_escape_single_arg a) :: args2)).data = _
      rw [ih]
      simp [renderArgsChars, String.data_append]

theorem shellWords_renderArgv (prog : String) (args : List String)
    (hne : prog.data ≠ [])
    (hplain : ∀ c ∈ prog.data, c ≠ squote ∧ c ≠ ' ' ∧ c ≠ bslash) :
    shellWords (renderArgv (prog :: args)) = some (prog :: args) := by
  unfold shellWords
  rw [renderArgv_data]
  obtain ⟨c, p2, hd⟩ : ∃ c p2, prog.data = c :: p2 := by
    cases hp : prog.data with
    | nil => exact absurd hp hne
    | cons x xs => exact ⟨x, xs, rfl⟩
  rw [hd]
  obtain ⟨h1, h2, h3⟩ := hplain c (by rw [hd]; simp)
  rw [List.cons_append, shSplit_unq_plain c h1 h2 h3]
  rw [shSplit_plain_leading p2 (renderArgsChars args) ([] ++ [c]) []
    (fun d hdm => hplain d (by rw [hd]; simp [hdm]))]
  rw [shSplit_args]
  simp only [List.nil_append, List.cons_append]
  show some (((c :: p2) :: args.map String.data).map List.asString) = _
  simp only [List.map_cons, List.map_map]
  rw [← hd]
  have : prog.data.asString = prog := rfl
  rw [this]
  congr 1
  congr 1
  have : (List.asString ∘ String.data) = id := by
    funext s
    rfl
  rw [this, List.map_id]

/-- C1: for every input the command builder accepts, the rendered agent
command is the fixed program word followed by each argv element
individually wrapped in single quotes with embedded quotes rewritten, and
shell word splitting of that rendering recovers exactly the intended argv
- so a prompt or argument containing quotes, semicolons or command
substitution stays one literal word and never changes the program
invoked. -/
theorem c1_command_builder_escaping_roundtrip :
    ∀ (sid : String) (agent : AgentKind) (model : Option String)
      (extra_args : Option (List String)) (prompt : String),
      (build_agent_command sid agent model extra_args prompt).isOk = true →
      (build_agent_argv agent model (extra_args.getD []) prompt).head? =
        some (agentProg agent) ∧
      renderArgv (build_agent_argv agent model (extra_args.getD []) prompt) =
        ((build_agent_argv agent model (extra_args.getD []) prompt).drop 1).foldl
          (fun cmd a => cmd ++ " " ++ sh_escape_single_arg a) (agentProg agent) ∧
      shellWords (renderArgv (build_agent_argv agent model (extra_args.getD []) prompt)) =
        some (build_agent_argv agent model (extra_args.getD []) prompt) := by
  intro sid agent model extra_args prompt _
  obtain ⟨args, hargv⟩ :
      ∃ args, build_agent_argv agent model (extra_args.getD []) prompt =
        agentProg agent :: args := by
    cases agent <;> exact ⟨_, rfl⟩
  rw [hargv]
  refine ⟨rfl, rfl, ?_⟩
  apply shellWords_renderArgv
  · cases agent <;> decide
  · cases agent <;> decide

/-- C1 witness: a prompt containing a single quote, a semicolon and a
command substitution round-trips through the shell rendering. -/
theorem c1_witness :
    shellWords (renderArgv (build_agent_argv AgentKind.claude (some "sonnet")
        ["--verbose"] ("it" ++ squoteS ++ "s; $(rm -rf /)"))) =
      some (build_agent_argv AgentKind.claude (some "sonnet")
        ["--verbose"] ("it" ++ squoteS ++ "s; $(rm -rf /)")) :=
  (c1_command_builder_escaping_roundtrip "orchestra-w" AgentKind.claude (some "sonnet")
    (some ["--verbose"]) ("it" ++ squoteS ++ "s; $(rm -rf /)") rfl).2.2

end Orchestra
